import Mathlib

/-!
Verification development for the tokenscope repository.

The development shallowly embeds the two core subsystems:

* the pool price resolver and discovery/aggregation pipeline of
  `src/lib/priceUtils.ts` (class `PriceService`), and
* the subscription registry, refresh and fan-out logic of the pricing
  durable object (`PricingDurableObject`).

Modelling conventions:

* JavaScript `BigInt` arithmetic is embedded as `Nat` arithmetic; `BigInt`
  division truncates toward zero on non-negative operands, which coincides
  with `Nat` division.  A `BigInt` division by zero throws; wherever the
  source can divide by zero inside a `try` block the embedding returns
  `none` at that point.
* Liquidity figures (compared in the source via `parseFloat` on decimal
  strings) are embedded as exact rationals `ℚ`.
* `JSON.stringify` equality of the per-venue price objects is embedded as
  equality of insertion-ordered association lists: the source builds these
  objects key by key, serialization preserves insertion order and every
  stored field, and `undefined` optional fields are omitted, which the
  `Option` fields model.
* Addresses and names are `String`s; the source's `toLowerCase()`
  normalisation is embedded with a structural `toLowerStr`.
-/

/-! ## On-chain pool state (the read-only contract interface) -/

/-- State readable from a concentrated-liquidity (Uniswap-V3-shaped) pool via
`V3_POOL_ABI` plus the ERC-20 metadata of its two constituent tokens. -/
structure V3State where
  token0 : String
  token1 : String
  decimals0 : Nat
  decimals1 : Nat
  symbol0 : String
  symbol1 : String
  sqrtPriceX96 : Nat
  liquidity : Nat
deriving Repr, DecidableEq

/-- State readable from a constant-product (Uniswap-V2-shaped) pair via
`V2_POOL_ABI` plus the ERC-20 metadata of its two constituent tokens. -/
structure V2State where
  token0 : String
  token1 : String
  decimals0 : Nat
  decimals1 : Nat
  symbol0 : String
  symbol1 : String
  reserve0 : Nat
  reserve1 : Nat
deriving Repr, DecidableEq

/-- A deployed pool is one of the two AMM shapes.  A contract of one shape
fails the other shape's ABI calls (`slot0` respectively `getReserves`). -/
inductive PoolState where
  | v3 (s : V3State)
  | v2 (s : V2State)
deriving Repr, DecidableEq

/-- Result record of `getTokenPriceFromPool`. -/
structure PriceQuote where
  priceInWei : Nat
  baseToken : String
  baseTokenSymbol : String
deriving Repr, DecidableEq

/-- Embedding of JavaScript `toLowerCase()` on the ASCII strings the source
compares (addresses, venue names), defined structurally so that it evaluates
inside the kernel. -/
def toLowerStr (s : String) : String := ⟨s.data.map Char.toLower⟩

/-! ## PriceService.getTokenPriceFromPool (src/lib/priceUtils.ts lines 182-312) -/

/-- The V3 interpretation attempt of `getTokenPriceFromPool`.  Mirrors the
`isV3 = true` loop iteration: `slot0` succeeds on a V3 pool, and the price is
computed with BigInt arithmetic.  In the token1 branch the source divides by
`sqrtPrice * decimal1BN`; when that is zero the BigInt division throws, the
error is caught, and the V2 interpretation is attempted instead (which fails
on a V3 pool), so the embedding returns `none` there. -/
def resolveV3 (s : V3State) (tokenAddress : String) : Option PriceQuote :=
  let isTokenToken0 := toLowerStr s.token0 == toLowerStr tokenAddress
  let otherToken := if isTokenToken0 then s.token1 else s.token0
  let otherSymbol := if isTokenToken0 then s.symbol1 else s.symbol0
  let q96 : Nat := 2 ^ 96
  let sqrtPrice := s.sqrtPriceX96 * s.sqrtPriceX96
  let decimal0BN : Nat := 10 ^ s.decimals0
  let decimal1BN : Nat := 10 ^ s.decimals1
  if isTokenToken0 then
    some ⟨sqrtPrice * decimal1BN / (q96 * q96 * decimal0BN), otherToken, otherSymbol⟩
  else
    if sqrtPrice * decimal1BN = 0 then none
    else some ⟨q96 * q96 * decimal0BN * decimal1BN / (sqrtPrice * decimal1BN), otherToken, otherSymbol⟩

/-- The V2 interpretation attempt of `getTokenPriceFromPool` (the
`isV3 = false` loop iteration).  Zero reserves `continue` to the end of the
loop, which for a V2 pool means no price is produced. -/
def resolveV2 (s : V2State) (tokenAddress : String) : Option PriceQuote :=
  let isTokenToken0 := toLowerStr s.token0 == toLowerStr tokenAddress
  let otherToken := if isTokenToken0 then s.token1 else s.token0
  let otherSymbol := if isTokenToken0 then s.symbol1 else s.symbol0
  if s.reserve0 = 0 ∨ s.reserve1 = 0 then none
  else
    let decimal0BN : Nat := 10 ^ s.decimals0
    let decimal1BN : Nat := 10 ^ s.decimals1
    if isTokenToken0 then
      some ⟨s.reserve1 * decimal1BN / (s.reserve0 * decimal0BN), otherToken, otherSymbol⟩
    else
      some ⟨s.reserve0 * decimal0BN / (s.reserve1 * decimal1BN), otherToken, otherSymbol⟩

/-- `PriceService.getTokenPriceFromPool`: try the V3 interpretation first,
then V2.  On a V3 pool the V2 attempt throws at `getReserves`; on a V2 pool
the V3 attempt throws at `slot0`; an unknown address fails both. -/
def getTokenPriceFromPool (pools : String → Option PoolState)
    (tokenAddress poolAddress : String) : Option PriceQuote :=
  match pools poolAddress with
  | none => none
  | some (.v3 s) => resolveV3 s tokenAddress
  | some (.v2 s) => resolveV2 s tokenAddress

/-! ## Spec-modelled reference rate (for the refinement claim about the rate)

The spec states the rate is "an integer count of the smallest unit of a
reference token needed to equal one whole unit of the target token".  The
following two definitions follow the spec's words, for comparison with the
arithmetic of `getTokenPriceFromPool`. -/

/-- Modelled from the spec: for a constant-product pool the marginal value of
one target-token smallest unit is `reserveOther / reserveTarget` reference
smallest units, so one whole target unit (`10 ^ targetDecimals` smallest
units) is worth the floor of `reserveOther * 10 ^ targetDecimals /
reserveTarget` reference smallest units. -/
def specRateConstantProduct (s : V2State) (targetIsToken0 : Bool) : Nat :=
  if targetIsToken0 then
    s.reserve1 * 10 ^ s.decimals0 / s.reserve0
  else
    s.reserve0 * 10 ^ s.decimals1 / s.reserve1

/-- Modelled from the spec: for a concentrated-liquidity pool the raw price
`sqrtPriceX96 ^ 2 / 2 ^ 192` is token1 smallest units per token0 smallest
unit, so one whole target unit is worth the floor of that raw ratio (or its
reciprocal) times `10 ^ targetDecimals` reference smallest units. -/
def specRateConcentratedLiquidity (s : V3State) (targetIsToken0 : Bool) : Nat :=
  let sq := s.sqrtPriceX96 * s.sqrtPriceX96
  if targetIsToken0 then
    sq * 10 ^ s.decimals0 / 2 ^ 192
  else
    2 ^ 192 * 10 ^ s.decimals1 / sq

/-! ## Shared association-list map and set helpers

JavaScript `Map` and `Set` are embedded as insertion-ordered association
lists respectively lists: `get` finds the first matching key, `set` replaces
an existing key in place (keeping its position) or appends a new one,
`delete` removes the first matching key, and `Set.add` is a no-op on an
element already present. -/

def mapGet {α : Type} : List (String × α) → String → Option α
  | [], _ => none
  | e :: rest, k => if e.1 = k then some e.2 else mapGet rest k

def mapSet {α : Type} : List (String × α) → String → α → List (String × α)
  | [], k, v => [(k, v)]
  | e :: rest, k, v => if e.1 = k then (k, v) :: rest else e :: mapSet rest k v

def mapDelete {α : Type} : List (String × α) → String → List (String × α)
  | [], _ => []
  | e :: rest, k => if e.1 = k then rest else e :: mapDelete rest k

def setAdd (s : List String) (x : String) : List String :=
  if x ∈ s then s else s ++ [x]

/-! ## Discovery and aggregation (src/lib/priceUtils.ts) -/

/-- `PoolResult` of `priceUtils.ts`.  `priceInWei` and `liquidity` are
decimal strings in the source; they are embedded as `Nat` and `ℚ` (the
source compares liquidity via `parseFloat`). -/
structure PoolResult where
  dex : String
  poolAddress : String
  liquidity : ℚ
  priceInWei : Nat
  baseToken : String
  baseTokenSymbol : String
  fee : Option Nat
deriving Repr, DecidableEq

/-- Contract addresses from `priceUtils.ts`. -/
def UNISWAP_V3_FACTORY : String := "0x1F98431c8aD98523631AE4a59f267346ea31F984"

def UNISWAP_V2_FACTORY : String := "0x5C69bEe701ef814a2B6a3EDD4B1652CB9cc5aA6f"

def SUSHISWAP_FACTORY : String := "0xC0AEe478e3658e2610c5F7A4A2E1777cE9e4f2Ac"

def PANCAKESWAP_V2_FACTORY : String := "0x1097053Fd2ea711dad45caCcc45EfF7548fCB362"

def PANCAKESWAP_V3_FACTORY : String := "0x0BFbCF9fa4f9C56B0F40a671Ad40E0805A091865"

def WETH_ADDRESS : String := "0xC02aaA39b223FE8D0A0e5C4F27eAD9083C756Cc2"

def V3_FEE_TIERS : List Nat := [100, 500, 3000, 10000]

/-- The on-chain read interface used by `PriceService`: pool state by address
and the two factory lookups.  A factory lookup returning `none` covers both a
zero-address result and a thrown call, which the source treats alike (the
pool/tier is skipped). -/
structure Chain where
  pools : String → Option PoolState
  v3GetPool : String → String → String → Nat → Option String
  v2GetPair : String → String → String → Option String

/-- `PriceService.getPoolLiquidity`: V3 pools report their `liquidity` slot;
V2 pools report `sqrt(reserve0 * reserve1)` (zero when either reserve is
zero); any failed read — including calling the wrong ABI shape — yields 0.
The source computes the V2 square root through a float `Math.sqrt`; the
embedding uses `Nat.sqrt`, which agrees in particular on positivity. -/
def getPoolLiquidity (chain : Chain) (poolAddress : String) (isV3 : Bool) : Nat :=
  match chain.pools poolAddress with
  | none => 0
  | some (.v3 s) => if isV3 then s.liquidity else 0
  | some (.v2 s) =>
      if isV3 then 0
      else if s.reserve0 = 0 ∨ s.reserve1 = 0 then 0
      else Nat.sqrt (s.reserve0 * s.reserve1)

/-- `PriceService.getDexPrices`: probe one venue for a token pair.  V3-style
venues probe the factory once per fee tier; V2-style venues probe the single
pair contract.  Pools with no deployed address or zero liquidity are skipped,
and a failed price resolution drops the pool. -/
def getDexPrices (chain : Chain) (tokenA tokenB dexName : String) : List PoolResult :=
  if dexName = "uniswap_v3" ∨ dexName = "pancakeswap_v3" then
    let factoryAddress := if dexName = "uniswap_v3" then UNISWAP_V3_FACTORY else PANCAKESWAP_V3_FACTORY
    V3_FEE_TIERS.foldl (fun results fee =>
      match chain.v3GetPool factoryAddress tokenA tokenB fee with
      | none => results
      | some poolAddress =>
          let liquidity := getPoolLiquidity chain poolAddress true
          if 0 < liquidity then
            match getTokenPriceFromPool chain.pools tokenA poolAddress with
            | some priceResult =>
                results ++ [⟨dexName, poolAddress, (liquidity : ℚ), priceResult.priceInWei,
                  priceResult.baseToken, priceResult.baseTokenSymbol, some fee⟩]
            | none => results
          else results) []
  else
    let factoryAddress? :=
      if dexName = "uniswap_v2" then some UNISWAP_V2_FACTORY
      else if dexName = "sushiswap" then some SUSHISWAP_FACTORY
      else if dexName = "pancakeswap_v2" then some PANCAKESWAP_V2_FACTORY
      else none
    match factoryAddress? with
    | none => []
    | some factoryAddress =>
        match chain.v2GetPair factoryAddress tokenA tokenB with
        | none => []
        | some pairAddress =>
            let liquidity := getPoolLiquidity chain pairAddress false
            if 0 < liquidity then
              match getTokenPriceFromPool chain.pools tokenA pairAddress with
              | some priceResult =>
                  [⟨dexName, pairAddress, (liquidity : ℚ), priceResult.priceInWei,
                    priceResult.baseToken, priceResult.baseTokenSymbol, none⟩]
              | none => []
            else []

/-- One side of a Moralis pair entry (the fields the source reads).
`pair_token_type` is the literal string `token0` or `token1`. -/
structure MoralisPairToken where
  token_address : String
  token_symbol : String
  pair_token_type : String
deriving Repr, DecidableEq

/-- A Moralis pair entry, restricted to the fields the source reads.  A null
or undefined `exchange_name` (skipped by the source's falsiness check) is
embedded as the empty string; a null `liquidity_usd` is embedded as 0,
matching the source's `?.toString() || '0'` fallback. -/
structure MoralisPair where
  exchange_name : String
  pair_address : String
  liquidity_usd : ℚ
  pair : List MoralisPairToken
deriving Repr, DecidableEq

/-- Outcome of the Moralis HTTP call: `fail` covers a non-success status, a
thrown fetch/parse error, and a payload with no `pairs` field, all of which
the source turns into an empty list. -/
inductive MoralisFetch where
  | fail
  | ok (pairs : List MoralisPair)

/-- `PriceService.queryMoralisForPools`: per lower-cased venue name, keep the
single highest-liquidity pair above the fixed 1000 USD liquidity floor. -/
def queryMoralisForPools (fetch : MoralisFetch) : List MoralisPair :=
  match fetch with
  | .fail => []
  | .ok allPairs =>
      let pairsByDex := allPairs.foldl (fun m pair =>
        if pair.exchange_name = "" then m
        else
          let dexName := toLowerStr pair.exchange_name
          let existingPair := mapGet m dexName
          if pair.liquidity_usd < 1000 then m
          else
            match existingPair with
            | none => mapSet m dexName pair
            | some e =>
                if e.liquidity_usd < pair.liquidity_usd then mapSet m dexName pair else m) []
      pairsByDex.map Prod.snd

/-- Substring test used to embed the source's `String.prototype.includes`. -/
def strContains (s pat : String) : Bool :=
  decide (pat.data <:+: s.data)

/-- The supported-venue patterns of `getMoralisPools`. -/
def isSupportedExchange (exchangeName : String) : Bool :=
  let e := toLowerStr exchangeName
  (strContains e "uniswap" && strContains e "v3") ||
  (strContains e "uniswap" && strContains e "v2") ||
  strContains e "sushiswap" ||
  (strContains e "pancakeswap" && strContains e "v3") ||
  (strContains e "pancakeswap" && strContains e "v2")

/-- Collapse whitespace runs to single underscores, embedding the source's
`replace(/\s+/g, '_')` fallback of `mapMoralisDexId`. -/
def squashWhitespace (s : String) : String :=
  let step := fun (acc : List Char × Bool) (c : Char) =>
    if c.isWhitespace then
      if acc.2 then acc else (acc.1 ++ ['_'], true)
    else (acc.1 ++ [c], false)
  ⟨(s.data.foldl step ([], false)).1⟩

/-- `mapMoralisDexId` of `priceUtils.ts`. -/
def mapMoralisDexId (exchangeName : String) : String :=
  if exchangeName = "" then "unknown"
  else
    let normalizedName := toLowerStr exchangeName
    if strContains normalizedName "uniswap" && strContains normalizedName "v3" then "uniswap_v3"
    else if strContains normalizedName "uniswap" && strContains normalizedName "v2" then "uniswap_v2"
    else if strContains normalizedName "sushiswap" then "sushiswap"
    else if strContains normalizedName "pancakeswap" && strContains normalizedName "v3" then "pancakeswap_v3"
    else if strContains normalizedName "pancakeswap" && strContains normalizedName "v2" then "pancakeswap_v2"
    else squashWhitespace normalizedName

/-- `isWETHPair` check of the sort comparator: the base token's symbol is the
literal `WETH`. -/
def isWETHPair (r : PoolResult) : Bool :=
  r.baseTokenSymbol == "WETH"

/-- Replace the first entry with the given pool address (the source's
`acc[acc.indexOf(existing)] = current`). -/
def replaceFirstPool (addr : String) (v : PoolResult) : List PoolResult → List PoolResult
  | [] => []
  | r :: rest => if r.poolAddress = addr then v :: rest else r :: replaceFirstPool addr v rest

/-- One step of the deduplication `reduce` of `deduplicateAndSort`: keep the
first entry per pool address, replacing it if a later duplicate has strictly
higher liquidity. -/
def dedupeStep (acc : List PoolResult) (current : PoolResult) : List PoolResult :=
  match acc.find? (fun r => r.poolAddress == current.poolAddress) with
  | none => acc ++ [current]
  | some existing =>
      if existing.liquidity < current.liquidity then
        replaceFirstPool current.poolAddress current acc
      else acc

/-- The sort comparator of `deduplicateAndSort` as a relation: WETH-based
entries come first; within the same WETH status, higher liquidity first. -/
def wethFirst (a b : PoolResult) : Prop :=
  if isWETHPair a = isWETHPair b then b.liquidity ≤ a.liquidity else isWETHPair a = true

instance : DecidableRel wethFirst := fun a b => by
  unfold wethFirst; infer_instance

instance : IsTotal PoolResult wethFirst where
  total a b := by
    unfold wethFirst
    cases ha : isWETHPair a <;> cases hb : isWETHPair b <;> simp <;> exact le_total _ _

instance : IsTrans PoolResult wethFirst where
  trans a b c hab hbc := by
    unfold wethFirst at *
    cases ha : isWETHPair a <;> cases hb : isWETHPair b <;> cases hc : isWETHPair c <;>
      simp_all <;> exact le_trans hbc hab

/-- `PriceService.deduplicateAndSort`: deduplicate by pool address keeping
the higher-liquidity entry, drop zero rates, sort WETH pairs first and then
by descending liquidity.  The source's `Array.sort` with its consistent
comparator is embedded as an insertion sort over the comparator's
relation, which produces a list sorted by the same order. -/
def deduplicateAndSort (allResults : List PoolResult) : List PoolResult :=
  let uniqueResults := allResults.foldl dedupeStep []
  let filtered := uniqueResults.filter (fun r => r.priceInWei != 0)
  filtered.insertionSort wethFirst

/-- Body of the pool-processing loop of `getMoralisPools`, threading the
`processedPools` set and the accumulated results. -/
def moralisPoolStep (chain : Chain) (tokenAddress : String)
    (st : List String × List PoolResult) (pool : MoralisPair) :
    List String × List PoolResult :=
  let poolKey := pool.pair_address
  if poolKey ∈ st.1 then st
  else
    let processed := st.1 ++ [poolKey]
    match pool.pair.find? (fun t => t.pair_token_type == "token0"),
          pool.pair.find? (fun t => t.pair_token_type == "token1") with
    | some token0, some token1 =>
        let isTargetBaseToken := toLowerStr token0.token_address == toLowerStr tokenAddress
        let otherTokenAddress := if isTargetBaseToken then token1.token_address else token0.token_address
        let otherTokenSymbol := if isTargetBaseToken then token1.token_symbol else token0.token_symbol
        match getTokenPriceFromPool chain.pools tokenAddress pool.pair_address with
        | some priceResult =>
            (processed, st.2 ++ [⟨mapMoralisDexId pool.exchange_name, pool.pair_address,
              pool.liquidity_usd, priceResult.priceInWei, otherTokenAddress, otherTokenSymbol, none⟩])
        | none => (processed, st.2)
    | _, _ => (processed, st.2)

/-- `PriceService.getMoralisPools`: query the index, filter to supported
venues, price at most the first ten surviving pools on chain, and
deduplicate-and-sort the outcome. -/
def getMoralisPools (fetch : MoralisFetch) (chain : Chain) (tokenAddress : String) :
    List PoolResult :=
  let allPools := queryMoralisForPools fetch
  if allPools = [] then []
  else
    let supportedPools := allPools.filter (fun pool =>
      !(pool.exchange_name = "") && isSupportedExchange pool.exchange_name)
    let looped := (supportedPools.take 10).foldl (moralisPoolStep chain tokenAddress) ([], [])
    deduplicateAndSort looped.2

/-- The fixed reference-token list of `getDirectDexPools`. -/
def baseTokens : List (String × String) :=
  [(WETH_ADDRESS, "WETH"),
   ("0xA0b86991c6218b36c1d19D4a2e9Eb0cE3606eB48", "USDC"),
   ("0x6B175474E89094C44Da98b954EedeAC495271d0F", "DAI"),
   ("0xdAC17F958D2ee523a2206206994597C13D831ec7", "USDT")]

/-- The fixed venue list of `getDirectDexPools`. -/
def dexesToTry : List String := ["uniswap_v3", "uniswap_v2", "sushiswap"]

/-- `PriceService.getDirectDexPools`: probe every venue with every reference
token and deduplicate-and-sort the union. -/
def getDirectDexPools (chain : Chain) (tokenAddress : String) : List PoolResult :=
  let allResults := dexesToTry.foldl (fun acc dexName =>
    baseTokens.foldl (fun acc baseToken =>
      acc ++ getDexPrices chain tokenAddress baseToken.1 dexName) acc) []
  deduplicateAndSort allResults

/-- `PriceService.getAllAvailablePrices`: indexed discovery first, falling
back to direct factory discovery when it yields nothing. -/
def getAllAvailablePrices (fetch : MoralisFetch) (chain : Chain) (tokenAddress : String) :
    List PoolResult :=
  let allResults := getMoralisPools fetch chain tokenAddress
  if allResults = [] then getDirectDexPools chain tokenAddress else allResults

/-! ## The pricing durable object (src/unnamed/part_001) -/

/-- `DexPriceInfo` of the durable object: one venue's stored price entry.
`JSON.stringify` comparisons see every one of these fields; the optional
fields are omitted from the serialization exactly when `none`. -/
structure DexPriceEntry where
  priceInWei : Nat
  poolAddress : String
  liquidity : ℚ
  fee : Option Nat
  error : Option String
  lastUpdate : Nat
deriving Repr, DecidableEq

/-- `TokenInfo` of the durable object.  `dexPrices` is the insertion-ordered
venue-to-entry object. -/
structure TokenInfo where
  symbol : String
  address : String
  decimals : Nat
  name : Option String
  dexPrices : List (String × DexPriceEntry)
  lastUpdate : Nat
  initialized : Bool
deriving Repr, DecidableEq

/-- `ClientSession`: the WebSocket handle is reduced to its open/closed
state, which is all `notifyAllClients` inspects; the `lastActivity` stamp
and optional metadata play no part in any modelled operation and are
omitted. -/
structure ClientSession where
  id : String
  subscribedTokens : List String
  wsOpen : Bool
deriving Repr, DecidableEq

/-- The mutable state of `PricingDurableObject`. -/
structure PricingDurableObject where
  sessions : List (String × ClientSession)
  tokenSubscribers : List (String × List String)
  tokenRegistry : List (String × TokenInfo)
deriving Repr, DecidableEq

/-- One featured token record as seeded in `FEATURED_TOKENS`. -/
def featuredToken (symbol address : String) (decimals : Nat) (name : String) : TokenInfo :=
  ⟨symbol, address, decimals, some name, [], 0, false⟩

/-- The `FEATURED_TOKENS` seed registry. -/
def FEATURED_TOKENS : List (String × TokenInfo) :=
  [("0xC02aaA39b223FE8D0A0e5C4F27eAD9083C756Cc2",
     featuredToken "WETH" "0xC02aaA39b223FE8D0A0e5C4F27eAD9083C756Cc2" 18 "Wrapped Ether"),
   ("0x2260FAC5E5542a773Aa44fBCfeDf7C193bc2C599",
     featuredToken "WBTC" "0x2260FAC5E5542a773Aa44fBCfeDf7C193bc2C599" 8 "Wrapped BTC"),
   ("0x1f9840a85d5aF5bf1D1762F925BDADdC4201F984",
     featuredToken "UNI" "0x1f9840a85d5aF5bf1D1762F925BDADdC4201F984" 18 "Uniswap")]

/-- The state after the constructor ran: no sessions, one empty subscriber
set per featured token (`initializeTokenSubscribers`), the seeded registry. -/
def initialState : PricingDurableObject :=
  ⟨[], FEATURED_TOKENS.map (fun e => (e.1, [])), FEATURED_TOKENS⟩

/-- The placeholder record `subscribeClientToToken` inserts for a token not
yet in the registry. -/
def placeholderToken (tokenAddress : String) : TokenInfo :=
  ⟨"UNKNOWN", tokenAddress, 18, some "Unknown Token", [], 0, false⟩

/-- `PricingDurableObject.subscribeClientToToken`. -/
def subscribeClientToToken (st : PricingDurableObject) (clientId tokenAddress : String) :
    PricingDurableObject :=
  match mapGet st.sessions clientId with
  | none => st
  | some session =>
      let session' := { session with subscribedTokens := setAdd session.subscribedTokens tokenAddress }
      let subscribers := (mapGet st.tokenSubscribers tokenAddress).getD []
      let tokenRegistry' :=
        if (mapGet st.tokenRegistry tokenAddress).isSome then st.tokenRegistry
        else mapSet st.tokenRegistry tokenAddress (placeholderToken tokenAddress)
      ⟨mapSet st.sessions clientId session',
       mapSet st.tokenSubscribers tokenAddress (setAdd subscribers clientId),
       tokenRegistry'⟩

/-- `PricingDurableObject.unsubscribeClientFromToken`: a token whose
subscriber set becomes empty is dropped from the monitoring map. -/
def unsubscribeClientFromToken (st : PricingDurableObject) (clientId tokenAddress : String) :
    PricingDurableObject :=
  match mapGet st.sessions clientId with
  | none => st
  | some session =>
      let session' := { session with subscribedTokens := session.subscribedTokens.erase tokenAddress }
      let sessions' := mapSet st.sessions clientId session'
      match mapGet st.tokenSubscribers tokenAddress with
      | none => { st with sessions := sessions' }
      | some subscribers =>
          let subscribers' := subscribers.erase clientId
          let tokenSubscribers' :=
            if subscribers' = [] then mapDelete st.tokenSubscribers tokenAddress
            else mapSet st.tokenSubscribers tokenAddress subscribers'
          { st with sessions := sessions', tokenSubscribers := tokenSubscribers' }

/-- `PricingDurableObject.removeClient`: unsubscribe the session from every
token it touched, then drop the session.  The source iterates the live
`subscribedTokens` set while each step deletes the visited element;
JavaScript set iteration still visits every originally present element, so
the embedding folds over the session's token list as captured on entry. -/
def removeClient (st : PricingDurableObject) (clientId : String) : PricingDurableObject :=
  match mapGet st.sessions clientId with
  | none => st
  | some session =>
      let st' := session.subscribedTokens.foldl
        (fun s tokenAddress => unsubscribeClientFromToken s clientId tokenAddress) st
      { st' with sessions := mapDelete st'.sessions clientId }

/-- A new client session as created in `handleWebSocket` (fresh id, empty
subscription set, open socket). -/
def connectClient (st : PricingDurableObject) (clientId : String) : PricingDurableObject :=
  { st with sessions := mapSet st.sessions clientId ⟨clientId, [], true⟩ }

/-- States reachable from the constructor state by session creation (with a
fresh generated id), subscribe, unsubscribe, and session removal. -/
inductive Reachable : PricingDurableObject → Prop where
  | init : Reachable initialState
  | connect {st} (h : Reachable st) (clientId : String)
      (fresh : mapGet st.sessions clientId = none) : Reachable (connectClient st clientId)
  | subscribe {st} (h : Reachable st) (clientId tokenAddress : String) :
      Reachable (subscribeClientToToken st clientId tokenAddress)
  | unsubscribe {st} (h : Reachable st) (clientId tokenAddress : String) :
      Reachable (unsubscribeClientFromToken st clientId tokenAddress)
  | remove {st} (h : Reachable st) (clientId : String) :
      Reachable (removeClient st clientId)

/-- The bidirectional-consistency property of the two registry maps. -/
def registryConsistent (st : PricingDurableObject) : Prop :=
  ∀ clientId tokenAddress,
    (∃ session, mapGet st.sessions clientId = some session ∧
        tokenAddress ∈ session.subscribedTokens) ↔
    (∃ subscribers, mapGet st.tokenSubscribers tokenAddress = some subscribers ∧
        clientId ∈ subscribers)

/-! ## Refresh and fan-out (updateSingleTokenPrice, updateAllActivePrices, notifyAllClients) -/

/-- Outcome of one `getAllAvailablePrices` call as observed by
`updateSingleTokenPrice`: a resolved list, or a thrown error whose formatted
message ends up in the sentinel entry. -/
inductive FetchOutcome where
  | ok (prices : List PoolResult)
  | err (msg : String)

/-- The fresh `dexPrices` object built by the population loop of
`updateSingleTokenPrice` at time `now`. -/
def buildDexPrices (prices : List PoolResult) (now : Nat) : List (String × DexPriceEntry) :=
  prices.foldl (fun m dexPrice =>
    mapSet m dexPrice.dex
      ⟨dexPrice.priceInWei, dexPrice.poolAddress, dexPrice.liquidity, dexPrice.fee, none, now⟩) []

/-- The sentinel entry recorded when a refresh fails for a token with no
stored prices. -/
def errorEntry (msg : String) (now : Nat) : DexPriceEntry :=
  ⟨0, "", 0, none, some msg, now⟩

/-- Core of `PricingDurableObject.updateSingleTokenPrice` once the token was
found in the registry: returns the `changed` flag and the updated record.
On success the price map is replaced wholesale and the token counts as
changed only when it was already initialized and the serialized old and new
maps differ; on error the stored prices are kept (or a single sentinel entry
is recorded when none exist) and the refresh is never a change. -/
def updateTokenInfo (tokenInfo : TokenInfo) (fetch : FetchOutcome) (now : Nat) :
    Bool × TokenInfo :=
  match fetch with
  | .ok dexPrices =>
      let oldPrices := tokenInfo.dexPrices
      let wasInitialized := tokenInfo.initialized
      let newPrices := buildDexPrices dexPrices now
      let tokenInfo' := { tokenInfo with dexPrices := newPrices, lastUpdate := now, initialized := true }
      if wasInitialized then (oldPrices != newPrices, tokenInfo') else (false, tokenInfo')
  | .err msg =>
      let dexPrices' :=
        if tokenInfo.dexPrices = [] then [("error", errorEntry msg now)] else tokenInfo.dexPrices
      (false, { tokenInfo with dexPrices := dexPrices', lastUpdate := now, initialized := true })

/-- `PricingDurableObject.updateSingleTokenPrice`: look the token up in the
registry (a miss reports no change) and apply `updateTokenInfo`. -/
def updateSingleTokenPrice (tokenRegistry : List (String × TokenInfo))
    (tokenAddress : String) (fetch : FetchOutcome) (now : Nat) :
    Bool × List (String × TokenInfo) :=
  match mapGet tokenRegistry tokenAddress with
  | none => (false, tokenRegistry)
  | some tokenInfo =>
      let r := updateTokenInfo tokenInfo fetch now
      (r.1, mapSet tokenRegistry tokenAddress r.2)

/-- `PricingDurableObject.notifyAllClients`: collect every client id found in
any token's subscriber set, and send each one whose session exists and whose
socket is open one message holding the current records of all of that
session's subscribed tokens.  The returned list is the attempted sends as
(client, payload) pairs (a send failure additionally tears the session
down, which no claim concerns). -/
def notifyAllClients (st : PricingDurableObject) : List (String × List TokenInfo) :=
  let allClientIds := st.tokenSubscribers.foldl (fun acc e => e.2.foldl setAdd acc) []
  allClientIds.filterMap (fun clientId =>
    match mapGet st.sessions clientId with
    | some session =>
        if session.wsOpen then
          some (clientId, session.subscribedTokens.filterMap (fun addr => mapGet st.tokenRegistry addr))
        else none
    | none => none)

/-- The refresh phase of `updateAllActivePrices`: run
`updateSingleTokenPrice` for every token in the monitoring map (each refresh
touches only that token's registry entry, so the parallel
`Promise.allSettled` is embedded as a sequential fold), returning the
updated registry together with the whether-any-token-changed flag.
`fetch` abstracts the injected `PriceService` call per token. -/
def refreshRegistry (st : PricingDurableObject) (fetch : String → FetchOutcome)
    (now : Nat) : List (String × TokenInfo) × Bool :=
  (st.tokenSubscribers.map Prod.fst).foldl
    (fun (acc : List (String × TokenInfo) × Bool) tokenAddress =>
      let r := updateSingleTokenPrice acc.1 tokenAddress (fetch tokenAddress) now
      (r.2, acc.2 || r.1)) (st.tokenRegistry, false)

/-- `PricingDurableObject.updateAllActivePrices`: refresh every monitored
token and, when any refresh reported a change, notify all clients from the
updated state. -/
def updateAllActivePrices (st : PricingDurableObject) (fetch : String → FetchOutcome)
    (now : Nat) : PricingDurableObject × List (String × List TokenInfo) :=
  let folded := refreshRegistry st fetch now
  let st' := { st with tokenRegistry := folded.1 }
  if folded.2 then (st', notifyAllClients st') else (st', [])

/-! ## Concrete instances used by the claim analyses -/

/-- A constant-product pool holding 1 unit of token0 against 5 of token1,
both tokens with 18 decimals. -/
def ratePool : V2State := ⟨"0xa", "0xb", 18, 18, "TKA", "WETH", 1, 5⟩

/-- A chain exposing only `ratePool` at address `0xp`. -/
def rateChain : String → Option PoolState :=
  fun a => if a = "0xp" then some (.v2 ratePool) else none

/-- A concentrated-liquidity pool shaped like the USDC/WETH test pool:
token0 with 6 decimals, token1 with 18, `sqrtPriceX96 = 22360 * 2 ^ 96`
(a raw price of 22360 squared). -/
def usdcShapedPool : V3State :=
  ⟨"0xusdc", "0xweth", 6, 18, "USDC", "WETH", 22360 * 2 ^ 96, 1⟩

/-- A chain exposing only `usdcShapedPool` at address `0xv`. -/
def usdcShapedChain : String → Option PoolState :=
  fun a => if a = "0xv" then some (.v3 usdcShapedPool) else none

/-- A constant-product pool with positive reserves 3 and 1 and zero-decimal
tokens. -/
def smallV2Pool : V2State := ⟨"0xa", "0xb", 0, 0, "TKA", "TKB", 3, 1⟩

/-- A chain exposing only `smallV2Pool` at address `0xp`. -/
def smallV2Chain : String → Option PoolState :=
  fun a => if a = "0xp" then some (.v2 smallV2Pool) else none

/-- A concentrated-liquidity pool with zero liquidity but a unit price
(`sqrtPriceX96 = 2 ^ 96`), zero-decimal tokens. -/
def zeroLiquidityV3Pool : V3State := ⟨"0xa", "0xb", 0, 0, "TKA", "TKB", 2 ^ 96, 0⟩

/-- A chain exposing only `zeroLiquidityV3Pool` at address `0xq`. -/
def zeroLiquidityV3Chain : String → Option PoolState :=
  fun a => if a = "0xq" then some (.v3 zeroLiquidityV3Pool) else none

/-- A chain with no pools and no factory results at all. -/
def emptyChain : Chain := ⟨fun _ => none, fun _ _ _ _ => none, fun _ _ _ => none⟩

/-- A stored venue entry: rate 5 from pool `0xp`, recorded at time 0. -/
def storedEntryX : DexPriceEntry := ⟨5, "0xp", 7, none, none, 0⟩

/-- Token `0xX`, already initialized, holding `storedEntryX`. -/
def tokenX : TokenInfo := ⟨"TKX", "0xX", 18, none, [("uniswap_v3", storedEntryX)], 0, true⟩

/-- Token `0xY`, already initialized, holding one entry from pool `0xq`. -/
def tokenY : TokenInfo := ⟨"TKY", "0xY", 18, none, [("uniswap_v3", ⟨9, "0xq", 3, none, none, 0⟩)], 0, true⟩

/-- A refresh outcome for `0xX` whose rate moved from 5 to 6. -/
def changedFetchX : FetchOutcome := .ok [⟨"uniswap_v3", "0xp", 7, 6, "0xb", "WETH", none⟩]

/-- A refresh outcome for `0xX` computing exactly the stored venue, pool,
rate, liquidity and fee again. -/
def sameFetchX : FetchOutcome := .ok [⟨"uniswap_v3", "0xp", 7, 5, "0xb", "WETH", none⟩]

/-- Per-token refresh outcomes of one pass: `0xX` resolves to a changed
rate, every other token's refresh throws. -/
def passFetch : String → FetchOutcome :=
  fun addr => if addr = "0xX" then changedFetchX else .err "boom"

/-- A two-session state: `s1` subscribes exactly `0xX`, `s2` exactly `0xY`;
both sessions live with open sockets. -/
def twoSessionState : PricingDurableObject :=
  ⟨[("s1", ⟨"s1", ["0xX"], true⟩), ("s2", ⟨"s2", ["0xY"], true⟩)],
   [("0xX", ["s1"]), ("0xY", ["s2"])],
   [("0xX", tokenX), ("0xY", tokenY)]⟩

/-- Token `0xX` as stored after the `passFetch` refresh at time 1. -/
def tokenXAfter : TokenInfo :=
  ⟨"TKX", "0xX", 18, none, [("uniswap_v3", ⟨6, "0xp", 7, none, none, 1⟩)], 1, true⟩

/-- Token `0xY` as stored after the `passFetch` refresh at time 1 (the
failed refresh keeps the stored prices and stamps the record). -/
def tokenYAfter : TokenInfo :=
  ⟨"TKY", "0xY", 18, none, [("uniswap_v3", ⟨9, "0xq", 3, none, none, 0⟩)], 1, true⟩

/-- A never-priced token record. -/
def freshToken : TokenInfo := ⟨"TKF", "0xF", 18, none, [], 0, false⟩

/-- First and second refresh outcomes for `0xF` with different rates. -/
def firstFetchF : FetchOutcome := .ok [⟨"uniswap_v3", "0xr", 2, 5, "0xb", "WETH", none⟩]

def secondFetchF : FetchOutcome := .ok [⟨"uniswap_v3", "0xr", 2, 6, "0xb", "WETH", none⟩]

/-- A unit-price concentrated-liquidity pool with zero-decimal tokens and
positive liquidity, for the reciprocal-consistency witness. -/
def unitV3Pool : V3State := ⟨"0xa", "0xb", 0, 0, "TKA", "TKB", 2 ^ 96, 5⟩

/-- A 3-against-2 constant-product pool with zero-decimal tokens, for the
reciprocal-consistency witness. -/
def lopsidedV2Pool : V2State := ⟨"0xa", "0xb", 0, 0, "TKA", "TKB", 2, 3⟩

/-- A chain exposing a single pool at a given address. -/
def singleChain (poolAddress : String) (st : PoolState) : String → Option PoolState :=
  fun a => if a = poolAddress then some st else none

/-- A constant-product pool with both reserves zero. -/
def emptyReservesPool : V2State := ⟨"0xa", "0xb", 0, 0, "TKA", "TKB", 0, 0⟩

/-- A one-session state over token `0xX` for the no-op-refresh pass. -/
def noopState : PricingDurableObject :=
  ⟨[("s1", ⟨"s1", ["0xX"], true⟩)], [("0xX", ["s1"])], [("0xX", tokenX)]⟩

/-- The sort order stated by the spec for `getAllPrices` output: a
WETH-based entry never follows a non-WETH one, and liquidity is
non-increasing among entries of equal WETH status. -/
def wethThenLiquidity (a b : PoolResult) : Prop :=
  (isWETHPair b = true → isWETHPair a = true) ∧
  (isWETHPair a = isWETHPair b → b.liquidity ≤ a.liquidity)

/-- Key distinctness of an association list. -/
def keysNodup {α : Type} (m : List (String × α)) : Prop :=
  (m.map Prod.fst).Nodup

/-- Well-formedness of the durable object's registries: JavaScript `Map`
keys and `Set` elements are distinct, and the session-to-tokens and
token-to-sessions maps index each other. -/
structure WF (st : PricingDurableObject) : Prop where
  sessionsKeysNodup : keysNodup st.sessions
  subsKeysNodup : keysNodup st.tokenSubscribers
  sessionTokensNodup : ∀ clientId session,
    mapGet st.sessions clientId = some session → session.subscribedTokens.Nodup
  subscribersNodup : ∀ tokenAddress subscribers,
    mapGet st.tokenSubscribers tokenAddress = some subscribers → subscribers.Nodup
  consistent : registryConsistent st

/-! ## Map and set lemmas -/

theorem mapGet_mapSet_self {α : Type} (m : List (String × α)) (k : String) (v : α) :
    mapGet (mapSet m k v) k = some v := by
  induction m with
  | nil => simp [mapSet, mapGet]
  | cons e rest ih =>
      by_cases h : e.1 = k
      · simp [mapSet, mapGet, h]
      · simp [mapSet, mapGet, h, ih]

theorem mapGet_mapSet_ne {α : Type} (m : List (String × α)) (k k' : String) (v : α)
    (h : k' ≠ k) : mapGet (mapSet m k v) k' = mapGet m k' := by
  induction m with
  | nil => simp [mapSet, mapGet, Ne.symm h]
  | cons e rest ih =>
      by_cases he : e.1 = k
      · subst he
        simp [mapSet, mapGet, Ne.symm h, h]
      · by_cases he' : e.1 = k'
        · simp [mapSet, mapGet, he, he', h]
        · simp [mapSet, mapGet, he, he', h, ih]

theorem mapGet_mapDelete_ne {α : Type} (m : List (String × α)) (k k' : String)
    (h : k' ≠ k) : mapGet (mapDelete m k) k' = mapGet m k' := by
  induction m with
  | nil => simp [mapDelete, mapGet]
  | cons e rest ih =>
      by_cases he : e.1 = k
      · subst he
        simp [mapDelete, mapGet, Ne.symm h, h]
      · by_cases he' : e.1 = k'
        · simp [mapDelete, mapGet, he, he', h]
        · simp [mapDelete, mapGet, he, he', h, ih]

theorem mapGet_eq_none_of_not_mem_keys {α : Type} (m : List (String × α)) (k : String)
    (h : k ∉ m.map Prod.fst) : mapGet m k = none := by
  induction m with
  | nil => simp [mapGet]
  | cons e rest ih =>
      simp only [List.map_cons, List.mem_cons] at h
      push_neg at h
      simp [mapGet, Ne.symm h.1, ih h.2]

theorem mapGet_mapDelete_self {α : Type} (m : List (String × α)) (k : String)
    (h : keysNodup m) : mapGet (mapDelete m k) k = none := by
  induction m with
  | nil => simp [mapDelete, mapGet]
  | cons e rest ih =>
      simp only [keysNodup, List.map_cons, List.nodup_cons] at h
      by_cases he : e.1 = k
      · subst he
        simp only [mapDelete, if_pos rfl]
        exact mapGet_eq_none_of_not_mem_keys rest e.1 h.1
      · simp [mapDelete, mapGet, he, ih h.2]

theorem mem_keys_mapSet {α : Type} (m : List (String × α)) (k x : String) (v : α) :
    x ∈ (mapSet m k v).map Prod.fst ↔ x ∈ m.map Prod.fst ∨ x = k := by
  induction m with
  | nil => simp [mapSet]
  | cons e rest ih =>
      by_cases he : e.1 = k
      · subst he
        simp [mapSet]
        tauto
      · simp only [mapSet, if_neg he, List.map_cons, List.mem_cons, ih]
        tauto

theorem keysNodup_mapSet {α : Type} (m : List (String × α)) (k : String) (v : α)
    (h : keysNodup m) : keysNodup (mapSet m k v) := by
  induction m with
  | nil => simp [mapSet, keysNodup]
  | cons e rest ih =>
      simp only [keysNodup, List.map_cons, List.nodup_cons] at h
      by_cases he : e.1 = k
      · subst he
        simpa [mapSet, keysNodup, List.nodup_cons] using h
      · have hrest := ih h.2
        simp only [mapSet, if_neg he, keysNodup, List.map_cons, List.nodup_cons]
        refine ⟨?_, hrest⟩
        rw [mem_keys_mapSet]
        rintro (hh | hh)
        · exact h.1 hh
        · exact he hh

theorem keys_mapDelete_sublist {α : Type} (m : List (String × α)) (k : String) :
    List.Sublist ((mapDelete m k).map Prod.fst) (m.map Prod.fst) := by
  induction m with
  | nil => simp [mapDelete]
  | cons e rest ih =>
      by_cases he : e.1 = k
      · simp only [mapDelete, if_pos he, List.map_cons]
        exact (List.Sublist.refl _).cons _
      · simp only [mapDelete, if_neg he, List.map_cons]
        exact ih.cons₂ _

theorem keysNodup_mapDelete {α : Type} (m : List (String × α)) (k : String)
    (h : keysNodup m) : keysNodup (mapDelete m k) :=
  List.Nodup.sublist (keys_mapDelete_sublist m k) h

theorem mem_setAdd (s : List String) (x y : String) :
    y ∈ setAdd s x ↔ y ∈ s ∨ y = x := by
  unfold setAdd
  by_cases h : x ∈ s
  · simp only [if_pos h]
    constructor
    · exact Or.inl
    · rintro (hy | rfl)
      · exact hy
      · exact h
  · simp [if_neg h]

theorem nodup_setAdd (s : List String) (x : String) (h : s.Nodup) :
    (setAdd s x).Nodup := by
  unfold setAdd
  by_cases hx : x ∈ s
  · simpa [if_pos hx] using h
  · simpa [if_neg hx, List.nodup_append] using ⟨h, fun hmem => hx hmem⟩

/-! ## Shapes of the registry operations -/

theorem subscribe_no_session {st : PricingDurableObject} {c : String} (t : String)
    (hs : mapGet st.sessions c = none) : subscribeClientToToken st c t = st := by
  simp [subscribeClientToToken, hs]

theorem subscribe_sessions_eq {st : PricingDurableObject} {c : String} (t : String)
    {sess : ClientSession} (hs : mapGet st.sessions c = some sess) :
    (subscribeClientToToken st c t).sessions =
      mapSet st.sessions c { sess with subscribedTokens := setAdd sess.subscribedTokens t } := by
  simp [subscribeClientToToken, hs]

theorem subscribe_subs_eq {st : PricingDurableObject} {c : String} (t : String)
    {sess : ClientSession} (hs : mapGet st.sessions c = some sess) :
    (subscribeClientToToken st c t).tokenSubscribers =
      mapSet st.tokenSubscribers t (setAdd ((mapGet st.tokenSubscribers t).getD []) c) := by
  simp [subscribeClientToToken, hs]

theorem unsub_no_session {st : PricingDurableObject} {c : String} (t : String)
    (hs : mapGet st.sessions c = none) : unsubscribeClientFromToken st c t = st := by
  simp [unsubscribeClientFromToken, hs]

theorem unsub_sessions_eq {st : PricingDurableObject} {c : String} (t : String)
    {sess : ClientSession} (hs : mapGet st.sessions c = some sess) :
    (unsubscribeClientFromToken st c t).sessions =
      mapSet st.sessions c { sess with subscribedTokens := sess.subscribedTokens.erase t } := by
  simp only [unsubscribeClientFromToken, hs]
  cases hsub : mapGet st.tokenSubscribers t with
  | none => rfl
  | some subs => by_cases he : subs.erase c = [] <;> simp [he]

theorem unsub_subs_none {st : PricingDurableObject} {c : String} (t : String)
    {sess : ClientSession} (hs : mapGet st.sessions c = some sess)
    (hsub : mapGet st.tokenSubscribers t = none) :
    (unsubscribeClientFromToken st c t).tokenSubscribers = st.tokenSubscribers := by
  simp [unsubscribeClientFromToken, hs, hsub]

theorem unsub_subs_some {st : PricingDurableObject} {c : String} (t : String)
    {sess : ClientSession} {subs : List String} (hs : mapGet st.sessions c = some sess)
    (hsub : mapGet st.tokenSubscribers t = some subs) :
    (unsubscribeClientFromToken st c t).tokenSubscribers =
      if subs.erase c = [] then mapDelete st.tokenSubscribers t
      else mapSet st.tokenSubscribers t (subs.erase c) := by
  simp only [unsubscribeClientFromToken, hs, hsub]

theorem unsub_registry_eq (st : PricingDurableObject) (c t : String) :
    (unsubscribeClientFromToken st c t).tokenRegistry = st.tokenRegistry := by
  simp only [unsubscribeClientFromToken]
  cases hs : mapGet st.sessions c with
  | none => rfl
  | some sess =>
      cases hsub : mapGet st.tokenSubscribers t with
      | none => rfl
      | some subs => by_cases he : subs.erase c = [] <;> simp [he]

theorem connect_sessions_eq (st : PricingDurableObject) (c : String) :
    (connectClient st c).sessions = mapSet st.sessions c ⟨c, [], true⟩ := rfl

theorem connect_subs_eq (st : PricingDurableObject) (c : String) :
    (connectClient st c).tokenSubscribers = st.tokenSubscribers := rfl

theorem remove_no_session {st : PricingDurableObject} {c : String}
    (hs : mapGet st.sessions c = none) : removeClient st c = st := by
  simp [removeClient, hs]

theorem remove_eq {st : PricingDurableObject} {c : String} {sess : ClientSession}
    (hs : mapGet st.sessions c = some sess) :
    removeClient st c =
      { (sess.subscribedTokens.foldl
          (fun s tokenAddress => unsubscribeClientFromToken s c tokenAddress) st) with
        sessions := mapDelete (sess.subscribedTokens.foldl
          (fun s tokenAddress => unsubscribeClientFromToken s c tokenAddress) st).sessions c } := by
  simp [removeClient, hs]

/-! ## Preservation of well-formedness -/

theorem mapGet_const_values {α β : Type} (l : List (String × α)) (c : β) (t : String) (v : β)
    (h : mapGet (l.map (fun e => (e.1, c))) t = some v) : v = c := by
  induction l with
  | nil => simp [mapGet] at h
  | cons e rest ih =>
      by_cases he : e.1 = t
      · simp [mapGet, he] at h
        exact h.symm
      · simp only [List.map_cons, mapGet, if_neg he] at h
        exact ih h

theorem wf_initialState : WF initialState := by
  constructor
  · simp [keysNodup, initialState]
  · show keysNodup (FEATURED_TOKENS.map (fun e => (e.1, ([] : List String))))
    unfold keysNodup
    decide
  · intro c sess hget
    simp [initialState, mapGet] at hget
  · intro t subs hget
    have := mapGet_const_values _ _ _ _ hget
    subst this
    exact List.nodup_nil
  · intro c t
    constructor
    · rintro ⟨sess, hget, _⟩
      simp [initialState, mapGet] at hget
    · rintro ⟨subs, hget, hmem⟩
      have := mapGet_const_values _ _ _ _ hget
      subst this
      simp at hmem

theorem wf_connect (st : PricingDurableObject) (c : String) (h : WF st)
    (fresh : mapGet st.sessions c = none) : WF (connectClient st c) := by
  constructor
  · show keysNodup (mapSet st.sessions c ⟨c, [], true⟩)
    exact keysNodup_mapSet _ _ _ h.sessionsKeysNodup
  · exact h.subsKeysNodup
  · intro c' sess hget
    rw [connect_sessions_eq] at hget
    by_cases hc : c' = c
    · subst hc
      rw [mapGet_mapSet_self] at hget
      injection hget with hh
      subst hh
      exact List.nodup_nil
    · rw [mapGet_mapSet_ne _ _ _ _ hc] at hget
      exact h.sessionTokensNodup _ _ hget
  · exact h.subscribersNodup
  · intro c' t
    by_cases hc : c' = c
    · subst hc
      constructor
      · rintro ⟨sess, hget, hmem⟩
        rw [connect_sessions_eq, mapGet_mapSet_self] at hget
        injection hget with hh
        subst hh
        simp at hmem
      · rintro ⟨subs, hget, hmem⟩
        obtain ⟨sess, hs0, _⟩ := (h.consistent c' t).mpr ⟨subs, hget, hmem⟩
        rw [fresh] at hs0
        cases hs0
    · constructor
      · rintro ⟨sess, hget, hmem⟩
        rw [connect_sessions_eq, mapGet_mapSet_ne _ _ _ _ hc] at hget
        exact (h.consistent c' t).mp ⟨sess, hget, hmem⟩
      · rintro ⟨subs, hget, hmem⟩
        obtain ⟨sess, hs0, hm0⟩ := (h.consistent c' t).mpr ⟨subs, hget, hmem⟩
        refine ⟨sess, ?_, hm0⟩
        rw [connect_sessions_eq, mapGet_mapSet_ne _ _ _ _ hc]
        exact hs0

theorem wf_subscribe (st : PricingDurableObject) (c t : String) (h : WF st) :
    WF (subscribeClientToToken st c t) := by
  cases hs : mapGet st.sessions c with
  | none => rw [subscribe_no_session t hs]; exact h
  | some sess =>
      constructor
      · show keysNodup (subscribeClientToToken st c t).sessions
        rw [subscribe_sessions_eq t hs]
        exact keysNodup_mapSet _ _ _ h.sessionsKeysNodup
      · show keysNodup (subscribeClientToToken st c t).tokenSubscribers
        rw [subscribe_subs_eq t hs]
        exact keysNodup_mapSet _ _ _ h.subsKeysNodup
      · intro c' sess' hget
        rw [subscribe_sessions_eq t hs] at hget
        by_cases hc : c' = c
        · subst hc
          rw [mapGet_mapSet_self] at hget
          injection hget with hh
          subst hh
          exact nodup_setAdd _ _ (h.sessionTokensNodup c' sess hs)
        · rw [mapGet_mapSet_ne _ _ _ _ hc] at hget
          exact h.sessionTokensNodup _ _ hget
      · intro t' subs' hget
        rw [subscribe_subs_eq t hs] at hget
        by_cases ht : t' = t
        · subst ht
          rw [mapGet_mapSet_self] at hget
          injection hget with hh
          subst hh
          apply nodup_setAdd
          cases hsub : mapGet st.tokenSubscribers t' with
          | none => simp [hsub]
          | some subs0 => simpa [hsub] using h.subscribersNodup t' subs0 hsub
        · rw [mapGet_mapSet_ne _ _ _ _ ht] at hget
          exact h.subscribersNodup _ _ hget
      · intro c' t'
        by_cases hc : c' = c <;> by_cases ht : t' = t
        · subst hc; subst ht
          constructor
          · intro _
            refine ⟨setAdd ((mapGet st.tokenSubscribers t').getD []) c', ?_, ?_⟩
            · rw [subscribe_subs_eq t' hs]
              exact mapGet_mapSet_self _ _ _
            · exact (mem_setAdd _ _ _).mpr (Or.inr rfl)
          · intro _
            refine ⟨{ sess with subscribedTokens := setAdd sess.subscribedTokens t' }, ?_, ?_⟩
            · rw [subscribe_sessions_eq t' hs]
              exact mapGet_mapSet_self _ _ _
            · exact (mem_setAdd _ _ _).mpr (Or.inr rfl)
        · subst hc
          constructor
          · rintro ⟨s', hget, hmem⟩
            rw [subscribe_sessions_eq t hs, mapGet_mapSet_self] at hget
            injection hget with hh
            subst hh
            have hmem' : t' ∈ sess.subscribedTokens := by
              rcases (mem_setAdd _ _ _).mp hmem with hh | hh
              · exact hh
              · exact absurd hh ht
            obtain ⟨subs, hsub, hcm⟩ := (h.consistent c' t').mp ⟨sess, hs, hmem'⟩
            refine ⟨subs, ?_, hcm⟩
            rw [subscribe_subs_eq t hs, mapGet_mapSet_ne _ _ _ _ ht]
            exact hsub
          · rintro ⟨subs, hsub, hcm⟩
            rw [subscribe_subs_eq t hs, mapGet_mapSet_ne _ _ _ _ ht] at hsub
            obtain ⟨sess0, hs0, hm0⟩ := (h.consistent c' t').mpr ⟨subs, hsub, hcm⟩
            rw [hs] at hs0
            injection hs0 with hh
            subst hh
            refine ⟨{ sess with subscribedTokens := setAdd sess.subscribedTokens t }, ?_, ?_⟩
            · rw [subscribe_sessions_eq t hs]
              exact mapGet_mapSet_self _ _ _
            · exact (mem_setAdd _ _ _).mpr (Or.inl hm0)
        · subst ht
          constructor
          · rintro ⟨s', hget, hmem⟩
            rw [subscribe_sessions_eq t' hs, mapGet_mapSet_ne _ _ _ _ hc] at hget
            obtain ⟨subs, hsub, hcm⟩ := (h.consistent c' t').mp ⟨s', hget, hmem⟩
            refine ⟨setAdd ((mapGet st.tokenSubscribers t').getD []) c, ?_, ?_⟩
            · rw [subscribe_subs_eq t' hs]
              exact mapGet_mapSet_self _ _ _
            · rw [mem_setAdd]
              left
              rw [hsub]
              simpa using hcm
          · rintro ⟨subs', hget', hcm'⟩
            rw [subscribe_subs_eq t' hs, mapGet_mapSet_self] at hget'
            injection hget' with hh
            subst hh
            have hmem0 : c' ∈ (mapGet st.tokenSubscribers t').getD [] := by
              rcases (mem_setAdd _ _ _).mp hcm' with hh | hh
              · exact hh
              · exact absurd hh hc
            cases hsub : mapGet st.tokenSubscribers t' with
            | none => rw [hsub] at hmem0; simp at hmem0
            | some subs0 =>
                rw [hsub] at hmem0
                simp only [Option.getD_some] at hmem0
                obtain ⟨sess0, hs0, hm0⟩ := (h.consistent c' t').mpr ⟨subs0, hsub, hmem0⟩
                refine ⟨sess0, ?_, hm0⟩
                rw [subscribe_sessions_eq t' hs, mapGet_mapSet_ne _ _ _ _ hc]
                exact hs0
        · constructor
          · rintro ⟨s', hget, hmem⟩
            rw [subscribe_sessions_eq t hs, mapGet_mapSet_ne _ _ _ _ hc] at hget
            obtain ⟨subs, hsub, hcm⟩ := (h.consistent c' t').mp ⟨s', hget, hmem⟩
            refine ⟨subs, ?_, hcm⟩
            rw [subscribe_subs_eq t hs, mapGet_mapSet_ne _ _ _ _ ht]
            exact hsub
          · rintro ⟨subs, hsub, hcm⟩
            rw [subscribe_subs_eq t hs, mapGet_mapSet_ne _ _ _ _ ht] at hsub
            obtain ⟨s0, h0, hm0⟩ := (h.consistent c' t').mpr ⟨subs, hsub, hcm⟩
            refine ⟨s0, ?_, hm0⟩
            rw [subscribe_sessions_eq t hs, mapGet_mapSet_ne _ _ _ _ hc]
            exact h0

theorem unsub_lhs_iff (st : PricingDurableObject) (c t : String) (sess : ClientSession)
    (hs : mapGet st.sessions c = some sess) (hnd : sess.subscribedTokens.Nodup)
    (c' t' : String) :
    (∃ s', mapGet (unsubscribeClientFromToken st c t).sessions c' = some s' ∧
        t' ∈ s'.subscribedTokens) ↔
    ((∃ s0, mapGet st.sessions c' = some s0 ∧ t' ∈ s0.subscribedTokens) ∧
      ¬(c' = c ∧ t' = t)) := by
  by_cases hc : c' = c
  · subst hc
    constructor
    · rintro ⟨s', hget, hmem⟩
      rw [unsub_sessions_eq t hs, mapGet_mapSet_self] at hget
      injection hget with hh
      subst hh
      have hmem' : t' ∈ sess.subscribedTokens := List.mem_of_mem_erase hmem
      have htne : t' ≠ t := by
        rintro rfl
        exact (List.Nodup.not_mem_erase hnd) hmem
      exact ⟨⟨sess, hs, hmem'⟩, by rintro ⟨_, rfl⟩; exact htne rfl⟩
    · rintro ⟨⟨s0, hget0, hm0⟩, hno⟩
      rw [hs] at hget0
      injection hget0 with hh
      subst hh
      have htne : t' ≠ t := fun hh => hno ⟨rfl, hh⟩
      refine ⟨{ sess with subscribedTokens := sess.subscribedTokens.erase t }, ?_, ?_⟩
      · rw [unsub_sessions_eq t hs]
        exact mapGet_mapSet_self _ _ _
      · exact (List.mem_erase_of_ne htne).mpr hm0
  · constructor
    · rintro ⟨s', hget, hmem⟩
      rw [unsub_sessions_eq t hs, mapGet_mapSet_ne _ _ _ _ hc] at hget
      exact ⟨⟨s', hget, hmem⟩, by rintro ⟨rfl, _⟩; exact hc rfl⟩
    · rintro ⟨⟨s0, h0, hm⟩, _⟩
      refine ⟨s0, ?_, hm⟩
      rw [unsub_sessions_eq t hs, mapGet_mapSet_ne _ _ _ _ hc]
      exact h0

theorem unsub_rhs_iff (st : PricingDurableObject) (c t : String) (sess : ClientSession)
    (subs : List String) (hs : mapGet st.sessions c = some sess)
    (hsub : mapGet st.tokenSubscribers t = some subs)
    (hker : keysNodup st.tokenSubscribers) (hnd : subs.Nodup) (c' t' : String) :
    (∃ subs', mapGet (unsubscribeClientFromToken st c t).tokenSubscribers t' = some subs' ∧
        c' ∈ subs') ↔
    ((∃ subs0, mapGet st.tokenSubscribers t' = some subs0 ∧ c' ∈ subs0) ∧
      ¬(c' = c ∧ t' = t)) := by
  by_cases ht : t' = t
  · subst ht
    by_cases he : subs.erase c = []
    · rw [unsub_subs_some t' hs hsub, if_pos he]
      constructor
      · rintro ⟨subs', hget, _⟩
        rw [mapGet_mapDelete_self _ _ hker] at hget
        cases hget
      · rintro ⟨⟨subs0, h0, hm⟩, hno⟩
        rw [hsub] at h0
        injection h0 with hh
        subst hh
        have hcne : c' ≠ c := fun hh => hno ⟨hh, rfl⟩
        have : c' ∈ subs.erase c := (List.mem_erase_of_ne hcne).mpr hm
        rw [he] at this
        cases this
    · rw [unsub_subs_some t' hs hsub, if_neg he]
      constructor
      · rintro ⟨subs', hget, hm⟩
        rw [mapGet_mapSet_self] at hget
        injection hget with hh
        subst hh
        have := (List.Nodup.mem_erase_iff hnd).mp hm
        exact ⟨⟨subs, hsub, this.2⟩, by rintro ⟨rfl, _⟩; exact this.1 rfl⟩
      · rintro ⟨⟨subs0, h0, hm⟩, hno⟩
        rw [hsub] at h0
        injection h0 with hh
        subst hh
        have hcne : c' ≠ c := fun hh => hno ⟨hh, rfl⟩
        refine ⟨subs.erase c, mapGet_mapSet_self _ _ _, (List.mem_erase_of_ne hcne).mpr hm⟩
  · have hrw : mapGet (unsubscribeClientFromToken st c t).tokenSubscribers t' =
        mapGet st.tokenSubscribers t' := by
      by_cases he : subs.erase c = []
      · rw [unsub_subs_some t hs hsub, if_pos he, mapGet_mapDelete_ne _ _ _ ht]
      · rw [unsub_subs_some t hs hsub, if_neg he, mapGet_mapSet_ne _ _ _ _ ht]
    rw [hrw]
    constructor
    · rintro ⟨subs', hget, hm⟩
      exact ⟨⟨subs', hget, hm⟩, by rintro ⟨_, rfl⟩; exact ht rfl⟩
    · rintro ⟨⟨subs0, h0, hm⟩, _⟩
      exact ⟨subs0, h0, hm⟩

theorem wf_unsubscribe (st : PricingDurableObject) (c t : String) (h : WF st) :
    WF (unsubscribeClientFromToken st c t) := by
  cases hs : mapGet st.sessions c with
  | none => rw [unsub_no_session t hs]; exact h
  | some sess =>
      have hsessnd := h.sessionTokensNodup c sess hs
      have hSessionsNodupNew : ∀ c' s',
          mapGet (unsubscribeClientFromToken st c t).sessions c' = some s' →
          s'.subscribedTokens.Nodup := by
        intro c' s' hget
        rw [unsub_sessions_eq t hs] at hget
        by_cases hc : c' = c
        · subst hc
          rw [mapGet_mapSet_self] at hget
          injection hget with hh
          subst hh
          exact List.Nodup.erase _ hsessnd
        · rw [mapGet_mapSet_ne _ _ _ _ hc] at hget
          exact h.sessionTokensNodup _ _ hget
      have hSessKeys : keysNodup (unsubscribeClientFromToken st c t).sessions := by
        rw [unsub_sessions_eq t hs]
        exact keysNodup_mapSet _ _ _ h.sessionsKeysNodup
      cases hsub : mapGet st.tokenSubscribers t with
      | none =>
          constructor
          · exact hSessKeys
          · rw [unsub_subs_none t hs hsub]
            exact h.subsKeysNodup
          · exact hSessionsNodupNew
          · intro t' subs' hget
            rw [unsub_subs_none t hs hsub] at hget
            exact h.subscribersNodup _ _ hget
          · intro c' t'
            rw [unsub_lhs_iff st c t sess hs hsessnd c' t']
            rw [show (unsubscribeClientFromToken st c t).tokenSubscribers =
                st.tokenSubscribers from unsub_subs_none t hs hsub]
            rw [← h.consistent c' t']
            constructor
            · exact fun hh => hh.1
            · intro hh
              refine ⟨hh, ?_⟩
              rintro ⟨rfl, rfl⟩
              obtain ⟨subs0, h0, _⟩ := (h.consistent c' t').mp hh
              rw [hsub] at h0
              cases h0
      | some subs =>
          have hsubnd := h.subscribersNodup t subs hsub
          constructor
          · exact hSessKeys
          · by_cases he : subs.erase c = []
            · rw [unsub_subs_some t hs hsub, if_pos he]
              exact keysNodup_mapDelete _ _ h.subsKeysNodup
            · rw [unsub_subs_some t hs hsub, if_neg he]
              exact keysNodup_mapSet _ _ _ h.subsKeysNodup
          · exact hSessionsNodupNew
          · intro t' subs' hget
            by_cases ht : t' = t
            · subst ht
              by_cases he : subs.erase c = []
              · rw [unsub_subs_some t' hs hsub, if_pos he,
                  mapGet_mapDelete_self _ _ h.subsKeysNodup] at hget
                cases hget
              · rw [unsub_subs_some t' hs hsub, if_neg he, mapGet_mapSet_self] at hget
                injection hget with hh
                subst hh
                exact List.Nodup.erase _ hsubnd
            · have hrw : mapGet (unsubscribeClientFromToken st c t).tokenSubscribers t' =
                  mapGet st.tokenSubscribers t' := by
                by_cases he : subs.erase c = []
                · rw [unsub_subs_some t hs hsub, if_pos he, mapGet_mapDelete_ne _ _ _ ht]
                · rw [unsub_subs_some t hs hsub, if_neg he, mapGet_mapSet_ne _ _ _ _ ht]
              rw [hrw] at hget
              exact h.subscribersNodup _ _ hget
          · intro c' t'
            rw [unsub_lhs_iff st c t sess hs hsessnd c' t',
              unsub_rhs_iff st c t sess subs hs hsub h.subsKeysNodup hsubnd c' t',
              h.consistent c' t']

theorem wf_remove_fold (c : String) :
    ∀ (toks : List String) (st : PricingDurableObject) (sess : ClientSession),
      WF st → mapGet st.sessions c = some sess → sess.subscribedTokens = toks →
      WF (toks.foldl (fun s tokenAddress => unsubscribeClientFromToken s c tokenAddress) st) ∧
      ∃ sess', mapGet (toks.foldl
          (fun s tokenAddress => unsubscribeClientFromToken s c tokenAddress) st).sessions c =
          some sess' ∧ sess'.subscribedTokens = [] := by
  intro toks
  induction toks with
  | nil =>
      intro st sess h hs hto
      exact ⟨h, sess, hs, hto⟩
  | cons a rest ih =>
      intro st sess h hs hto
      have h1 : WF (unsubscribeClientFromToken st c a) := wf_unsubscribe st c a h
      have hs1 : mapGet (unsubscribeClientFromToken st c a).sessions c =
          some { sess with subscribedTokens := sess.subscribedTokens.erase a } := by
        rw [unsub_sessions_eq a hs]
        exact mapGet_mapSet_self _ _ _
      have hto1 : ({ sess with subscribedTokens := sess.subscribedTokens.erase a }).subscribedTokens
          = rest := by
        rw [hto]
        exact List.erase_cons_head a rest
      rw [List.foldl_cons]
      exact ih _ _ h1 hs1 hto1

theorem wf_remove (st : PricingDurableObject) (c : String) (h : WF st) :
    WF (removeClient st c) := by
  cases hs : mapGet st.sessions c with
  | none => rw [remove_no_session hs]; exact h
  | some sess =>
      obtain ⟨h', sess', hs', hto'⟩ := wf_remove_fold c sess.subscribedTokens st sess h hs rfl
      rw [remove_eq hs]
      set st' := sess.subscribedTokens.foldl
        (fun s tokenAddress => unsubscribeClientFromToken s c tokenAddress) st with hst'
      constructor
      · show keysNodup (mapDelete st'.sessions c)
        exact keysNodup_mapDelete _ _ h'.sessionsKeysNodup
      · exact h'.subsKeysNodup
      · intro c' s' hget
        show s'.subscribedTokens.Nodup
        by_cases hc : c' = c
        · subst hc
          rw [show ({ st' with sessions := mapDelete st'.sessions c' } :
              PricingDurableObject).sessions = mapDelete st'.sessions c' from rfl,
            mapGet_mapDelete_self _ _ h'.sessionsKeysNodup] at hget
          cases hget
        · rw [show ({ st' with sessions := mapDelete st'.sessions c } :
              PricingDurableObject).sessions = mapDelete st'.sessions c from rfl,
            mapGet_mapDelete_ne _ _ _ hc] at hget
          exact h'.sessionTokensNodup _ _ hget
      · exact h'.subscribersNodup
      · intro c' t'
        constructor
        · rintro ⟨s', hget, hm⟩
          by_cases hc : c' = c
          · subst hc
            rw [show ({ st' with sessions := mapDelete st'.sessions c' } :
                PricingDurableObject).sessions = mapDelete st'.sessions c' from rfl,
              mapGet_mapDelete_self _ _ h'.sessionsKeysNodup] at hget
            cases hget
          · rw [show ({ st' with sessions := mapDelete st'.sessions c } :
                PricingDurableObject).sessions = mapDelete st'.sessions c from rfl,
              mapGet_mapDelete_ne _ _ _ hc] at hget
            exact (h'.consistent c' t').mp ⟨s', hget, hm⟩
        · rintro ⟨subs, hsubg, hcm⟩
          obtain ⟨s0, h0, hm0⟩ := (h'.consistent c' t').mpr ⟨subs, hsubg, hcm⟩
          by_cases hc : c' = c
          · subst hc
            rw [hs'] at h0
            injection h0 with hh
            subst hh
            rw [hto'] at hm0
            cases hm0
          · refine ⟨s0, ?_, hm0⟩
            rw [show ({ st' with sessions := mapDelete st'.sessions c } :
                PricingDurableObject).sessions = mapDelete st'.sessions c from rfl,
              mapGet_mapDelete_ne _ _ _ hc]
            exact h0

theorem reachable_wf (st : PricingDurableObject) (h : Reachable st) : WF st := by
  induction h with
  | init => exact wf_initialState
  | connect h clientId fresh ih => exact wf_connect _ _ ih fresh
  | subscribe h clientId tokenAddress ih => exact wf_subscribe _ _ _ ih
  | unsubscribe h clientId tokenAddress ih => exact wf_unsubscribe _ _ _ ih
  | remove h clientId ih => exact wf_remove _ _ ih

/-! ## Arithmetic bracketing of reciprocal integer rates -/

theorem divBracket (N D k : Nat) (hN : 0 < N) (hD : 0 < D) :
    N / D * (D * k / N) ≤ k ∧ k < (N / D + 1) * (D * k / N + 1) := by
  constructor
  · have h1 : N / D * D ≤ N := Nat.div_mul_le_self N D
    have h2 : D * k / N * N ≤ D * k := Nat.div_mul_le_self (D * k) N
    have h3 : N / D * D * (D * k / N * N) ≤ N * (D * k) := Nat.mul_le_mul h1 h2
    have h4 : N / D * (D * k / N) * (D * N) ≤ k * (D * N) := by
      calc N / D * (D * k / N) * (D * N) = N / D * D * (D * k / N * N) := by ring
        _ ≤ N * (D * k) := h3
        _ = k * (D * N) := by ring
    exact Nat.le_of_mul_le_mul_right h4 (Nat.mul_pos hD hN)
  · have h1 : N < (N / D + 1) * D := (Nat.div_lt_iff_lt_mul hD).mp (Nat.lt_succ_self (N / D))
    have h2 : D * k < (D * k / N + 1) * N :=
      (Nat.div_lt_iff_lt_mul hN).mp (Nat.lt_succ_self (D * k / N))
    have h3 : N * (D * k) < (N / D + 1) * D * ((D * k / N + 1) * N) :=
      mul_lt_mul'' h1 h2 (Nat.zero_le _) (Nat.zero_le _)
    have h4 : k * (D * N) < (N / D + 1) * (D * k / N + 1) * (D * N) := by
      calc k * (D * N) = N * (D * k) := by ring
        _ < (N / D + 1) * D * ((D * k / N + 1) * N) := h3
        _ = (N / D + 1) * (D * k / N + 1) * (D * N) := by ring
    exact lt_of_mul_lt_mul_right h4 (Nat.zero_le _)

/-! ## Sortedness of the aggregator output -/

theorem wethFirst_imp_wethThenLiquidity (a b : PoolResult) (h : wethFirst a b) :
    wethThenLiquidity a b := by
  unfold wethFirst at h
  unfold wethThenLiquidity
  by_cases he : isWETHPair a = isWETHPair b
  · rw [if_pos he] at h
    exact ⟨fun hb => he.trans hb, fun _ => h⟩
  · rw [if_neg he] at h
    constructor
    · intro hb
      exact h
    · intro hh
      exact absurd hh he

theorem pairwise_deduplicateAndSort (allResults : List PoolResult) :
    (deduplicateAndSort allResults).Pairwise wethThenLiquidity := by
  unfold deduplicateAndSort
  exact List.Pairwise.imp (fun hab => wethFirst_imp_wethThenLiquidity _ _ hab)
    (List.sorted_insertionSort wethFirst _)

/-! ## Fan-out membership -/

theorem mem_foldl_setAdd (l : List String) (acc : List String) (y : String) :
    y ∈ l.foldl setAdd acc ↔ y ∈ acc ∨ y ∈ l := by
  induction l generalizing acc with
  | nil => simp
  | cons a rest ih =>
      rw [List.foldl_cons, ih]
      simp only [mem_setAdd, List.mem_cons]
      tauto

theorem mem_collect_clients (m : List (String × List String)) (acc : List String) (y : String) :
    y ∈ m.foldl (fun acc e => e.2.foldl setAdd acc) acc ↔
      y ∈ acc ∨ ∃ e, e ∈ m ∧ y ∈ e.2 := by
  induction m generalizing acc with
  | nil => simp
  | cons a rest ih =>
      rw [List.foldl_cons, ih, mem_foldl_setAdd]
      simp only [List.mem_cons]
      constructor
      · rintro ((hy | hy) | ⟨e, he, hye⟩)
        · exact Or.inl hy
        · exact Or.inr ⟨a, Or.inl rfl, hy⟩
        · exact Or.inr ⟨e, Or.inr he, hye⟩
      · rintro (hy | ⟨e, (rfl | he), hye⟩)
        · exact Or.inl (Or.inl hy)
        · exact Or.inl (Or.inr hye)
        · exact Or.inr ⟨e, he, hye⟩

theorem mem_notifyAllClients (st : PricingDurableObject) (clientId : String)
    (payload : List TokenInfo) :
    (clientId, payload) ∈ notifyAllClients st ↔
      (∃ e, e ∈ st.tokenSubscribers ∧ clientId ∈ e.2) ∧
      ∃ session, mapGet st.sessions clientId = some session ∧ session.wsOpen = true ∧
        payload = session.subscribedTokens.filterMap
          (fun addr => mapGet st.tokenRegistry addr) := by
  unfold notifyAllClients
  rw [List.mem_filterMap]
  constructor
  · rintro ⟨cid, hcid, hf⟩
    cases hg : mapGet st.sessions cid with
    | none => rw [hg] at hf; cases hf
    | some session =>
        rw [hg] at hf
        dsimp only at hf
        cases hw : session.wsOpen with
        | false => rw [hw] at hf; simp at hf
        | true =>
            rw [hw] at hf
            simp only [if_true, Option.some.injEq, Prod.mk.injEq] at hf
            obtain ⟨rfl, rfl⟩ := hf
            refine ⟨?_, session, hg, hw, rfl⟩
            have hm := (mem_collect_clients st.tokenSubscribers [] cid).mp hcid
            rcases hm with hy | hy
            · cases hy
            · exact hy
  · rintro ⟨⟨e, he, hce⟩, session, hs, hw, hp⟩
    refine ⟨clientId, ?_, ?_⟩
    · exact (mem_collect_clients st.tokenSubscribers [] clientId).mpr (Or.inr ⟨e, he, hce⟩)
    · rw [hs]
      dsimp only
      rw [hw]
      simp [hp]

/-! ## Evaluations of the resolver on single pools -/

theorem resolve_v3_token0 (s : V3State) (pool : String) :
    getTokenPriceFromPool (singleChain pool (.v3 s)) s.token0 pool =
      some ⟨s.sqrtPriceX96 * s.sqrtPriceX96 * 10 ^ s.decimals1 /
          (2 ^ 96 * 2 ^ 96 * 10 ^ s.decimals0), s.token1, s.symbol1⟩ := by
  simp [getTokenPriceFromPool, singleChain, resolveV3]

theorem resolve_v3_token1 (s : V3State) (pool : String)
    (hne : toLowerStr s.token0 ≠ toLowerStr s.token1) (hpos : 0 < s.sqrtPriceX96) :
    getTokenPriceFromPool (singleChain pool (.v3 s)) s.token1 pool =
      some ⟨2 ^ 96 * 2 ^ 96 * 10 ^ s.decimals0 * 10 ^ s.decimals1 /
          (s.sqrtPriceX96 * s.sqrtPriceX96 * 10 ^ s.decimals1), s.token0, s.symbol0⟩ := by
  have hb : (toLowerStr s.token0 == toLowerStr s.token1) = false := beq_eq_false_iff_ne.mpr hne
  have hzz : 0 < s.sqrtPriceX96 * s.sqrtPriceX96 * 10 ^ s.decimals1 :=
    Nat.mul_pos (Nat.mul_pos hpos hpos) (pow_pos (by norm_num) _)
  have hz : ¬(s.sqrtPriceX96 * s.sqrtPriceX96 * 10 ^ s.decimals1 = 0) := hzz.ne'
  simp [getTokenPriceFromPool, singleChain, resolveV3, hb, hz]

theorem resolve_v2_token0 (s : V2State) (pool : String)
    (h0 : 0 < s.reserve0) (h1 : 0 < s.reserve1) :
    getTokenPriceFromPool (singleChain pool (.v2 s)) s.token0 pool =
      some ⟨s.reserve1 * 10 ^ s.decimals1 / (s.reserve0 * 10 ^ s.decimals0),
        s.token1, s.symbol1⟩ := by
  have hz : ¬(s.reserve0 = 0 ∨ s.reserve1 = 0) := by
    rintro (h | h)
    · exact h0.ne' h
    · exact h1.ne' h
  simp [getTokenPriceFromPool, singleChain, resolveV2, hz]

theorem resolve_v2_token1 (s : V2State) (pool : String)
    (h0 : 0 < s.reserve0) (h1 : 0 < s.reserve1)
    (hne : toLowerStr s.token0 ≠ toLowerStr s.token1) :
    getTokenPriceFromPool (singleChain pool (.v2 s)) s.token1 pool =
      some ⟨s.reserve0 * 10 ^ s.decimals0 / (s.reserve1 * 10 ^ s.decimals1),
        s.token0, s.symbol0⟩ := by
  have hb : (toLowerStr s.token0 == toLowerStr s.token1) = false := beq_eq_false_iff_ne.mpr hne
  have hz : ¬(s.reserve0 = 0 ∨ s.reserve1 = 0) := by
    rintro (h | h)
    · exact h0.ne' h
    · exact h1.ne' h
  simp [getTokenPriceFromPool, singleChain, resolveV2, hz, hb]

/-- C7: resolving the two sides of one pool yields integer rates whose
product brackets the exact aligned unit: for a concentrated-liquidity pool
the exact product of the two pre-floor ratios is `10 ^ decimals1` and for a
constant-product pool it is `1`, and the floored rates under- and
over-approximate that constant within one rounding step on each factor, so
the product recovers unity (after dividing out the decimal alignment
constant) within integer-rounding tolerance. -/
theorem c7_reciprocal_consistency :
    (∀ (s : V3State) (poolAddress : String) (qA qB : PriceQuote),
       0 < s.sqrtPriceX96 →
       toLowerStr s.token0 ≠ toLowerStr s.token1 →
       getTokenPriceFromPool (singleChain poolAddress (.v3 s)) s.token0 poolAddress = some qA →
       getTokenPriceFromPool (singleChain poolAddress (.v3 s)) s.token1 poolAddress = some qB →
       qA.priceInWei * qB.priceInWei ≤ 10 ^ s.decimals1 ∧
         10 ^ s.decimals1 < (qA.priceInWei + 1) * (qB.priceInWei + 1)) ∧
    (∀ (s : V2State) (poolAddress : String) (qA qB : PriceQuote),
       0 < s.reserve0 → 0 < s.reserve1 →
       toLowerStr s.token0 ≠ toLowerStr s.token1 →
       getTokenPriceFromPool (singleChain poolAddress (.v2 s)) s.token0 poolAddress = some qA →
       getTokenPriceFromPool (singleChain poolAddress (.v2 s)) s.token1 poolAddress = some qB →
       qA.priceInWei * qB.priceInWei ≤ 1 ∧
         1 < (qA.priceInWei + 1) * (qB.priceInWei + 1)) := by
  constructor
  · intro s poolAddress qA qB hpos hne hA hB
    rw [resolve_v3_token0] at hA
    rw [resolve_v3_token1 s poolAddress hne hpos] at hB
    injection hA with hA
    injection hB with hB
    subst hA
    subst hB
    have hN : 0 < s.sqrtPriceX96 * s.sqrtPriceX96 * 10 ^ s.decimals1 :=
      Nat.mul_pos (Nat.mul_pos hpos hpos) (pow_pos (by norm_num) _)
    have hD : 0 < 2 ^ 96 * 2 ^ 96 * 10 ^ s.decimals0 :=
      Nat.mul_pos (Nat.mul_pos (pow_pos (by norm_num) _) (pow_pos (by norm_num) _))
        (pow_pos (by norm_num) _)
    exact divBracket (s.sqrtPriceX96 * s.sqrtPriceX96 * 10 ^ s.decimals1)
      (2 ^ 96 * 2 ^ 96 * 10 ^ s.decimals0) (10 ^ s.decimals1) hN hD
  · intro s poolAddress qA qB h0 h1 hne hA hB
    rw [resolve_v2_token0 s poolAddress h0 h1] at hA
    rw [resolve_v2_token1 s poolAddress h0 h1 hne] at hB
    injection hA with hA
    injection hB with hB
    subst hA
    subst hB
    have hN : 0 < s.reserve1 * 10 ^ s.decimals1 :=
      Nat.mul_pos h1 (pow_pos (by norm_num) _)
    have hD : 0 < s.reserve0 * 10 ^ s.decimals0 :=
      Nat.mul_pos h0 (pow_pos (by norm_num) _)
    have hbr := divBracket (s.reserve1 * 10 ^ s.decimals1) (s.reserve0 * 10 ^ s.decimals0) 1 hN hD
    simpa using hbr

/-- C7 witness: the bracket at a unit-price concentrated pool and a
3-against-2 constant-product pool. -/
theorem c7_reciprocal_consistency_witness :
    ((1 : Nat) * 1 ≤ 10 ^ unitV3Pool.decimals1 ∧
      10 ^ unitV3Pool.decimals1 < (1 + 1) * (1 + 1)) ∧
    ((1 : Nat) * 0 ≤ 1 ∧ 1 < (1 + 1) * (0 + 1)) := by
  constructor
  · exact c7_reciprocal_consistency.1 unitV3Pool "0xp" ⟨1, "0xb", "TKB"⟩ ⟨1, "0xa", "TKA"⟩
      (by decide) (by decide) (by decide) (by decide)
  · exact c7_reciprocal_consistency.2 lopsidedV2Pool "0xp" ⟨1, "0xb", "TKB"⟩ ⟨0, "0xa", "TKA"⟩
      (by decide) (by decide) (by decide) (by decide) (by decide)

/-! ## Claim theorems -/

/-- C2: at the failing inputs the computed rate differs from the
reference-smallest-unit-per-whole-target-unit value the spec describes.  For
a 1-against-5 constant-product pool of two 18-decimal tokens the source
computes 5 (the raw reserve ratio rescaled by `10 ^ decimals1 / 10 ^
decimals0`) where 5 * 10 ^ 18 reference smallest units equal one whole
target unit; for a USDC/WETH-shaped concentrated pool, resolving the
18-decimal token1 yields 0 where the spec value is positive (about 2 * 10 ^
9 smallest units). -/
theorem c2_rate_unit_divergence :
    getTokenPriceFromPool rateChain "0xa" "0xp" = some ⟨5, "0xb", "WETH"⟩ ∧
    specRateConstantProduct ratePool true = 5000000000000000000 ∧
    (5 : Nat) ≠ 5000000000000000000 ∧
    getTokenPriceFromPool usdcShapedChain "0xweth" "0xv" = some ⟨0, "0xusdc", "USDC"⟩ ∧
    specRateConcentratedLiquidity usdcShapedPool false = 2000121607 := by
  refine ⟨by decide, by decide, by decide, by decide, by decide⟩

/-- C3: a refresh recomputing exactly the stored venues, pools, rates,
liquidity and fees is reported as changed whenever it happens at a later
timestamp, because the serialized comparison includes each entry's
`lastUpdate` stamp; only a refresh in the same millisecond compares equal.
Such a pass consequently does notify clients. -/
theorem c3_noop_refresh_reported_changed :
    (updateTokenInfo tokenX sameFetchX 1).1 = true ∧
    (updateTokenInfo tokenX sameFetchX 0).1 = false ∧
    (updateAllActivePrices noopState (fun _ => sameFetchX) 1).2 ≠ [] := by
  refine ⟨by decide, by decide, by decide⟩

/-- C4 counterexample: a constant-product pool with strictly positive
reserves 3 and 1 resolves to the rate 0 (not strictly positive, and a
returned zero), and a concentrated-liquidity pool with zero liquidity but a
set price resolves successfully instead of returning not-found. -/
theorem c4_resolve_zero_counterexample :
    getTokenPriceFromPool smallV2Chain "0xa" "0xp" = some ⟨0, "0xb", "TKB"⟩ ∧
    getTokenPriceFromPool zeroLiquidityV3Chain "0xa" "0xq" = some ⟨1, "0xb", "TKB"⟩ := by
  refine ⟨by decide, by decide⟩

/-- C4 (amended): for a constant-product pool, resolve returns not-found
exactly when a reserve is zero, and otherwise returns a rate that may be
zero; concentrated-liquidity resolution never reads the pool's liquidity,
so its result is independent of that value. -/
theorem c4_resolve_amended :
    (∀ (s : V2State) (tokenAddress poolAddress : String),
       getTokenPriceFromPool (singleChain poolAddress (.v2 s)) tokenAddress poolAddress = none ↔
         s.reserve0 = 0 ∨ s.reserve1 = 0) ∧
    (∀ (s : V3State) (L : Nat) (tokenAddress poolAddress : String),
       getTokenPriceFromPool (singleChain poolAddress (.v3 { s with liquidity := L }))
           tokenAddress poolAddress =
         getTokenPriceFromPool (singleChain poolAddress (.v3 s)) tokenAddress poolAddress) := by
  constructor
  · intro s tokenAddress poolAddress
    simp only [getTokenPriceFromPool, singleChain, if_pos rfl]
    unfold resolveV2
    by_cases hz : s.reserve0 = 0 ∨ s.reserve1 = 0
    · simp [hz]
    · by_cases hb : (toLowerStr s.token0 == toLowerStr tokenAddress) = true <;> simp [hb, hz]
  · intro s L tokenAddress poolAddress
    simp [getTokenPriceFromPool, singleChain, resolveV3]

/-- C4 witness: the amended equivalence applied to a pool with both
reserves zero. -/
theorem c4_resolve_amended_witness :
    getTokenPriceFromPool (singleChain "0xp" (.v2 emptyReservesPool)) "0xa" "0xp" = none :=
  (c4_resolve_amended.1 emptyReservesPool "0xa" "0xp").mpr (Or.inl rfl)

/-- C5: a successful refresh of a not-yet-initialized token is never
reported as a change (and marks the token initialized); a refresh of an
initialized token whose freshly built price map differs from the stored one
is reported as a change. -/
theorem c5_first_refresh_baseline :
    (∀ (tokenInfo : TokenInfo) (prices : List PoolResult) (now : Nat),
       tokenInfo.initialized = false →
       (updateTokenInfo tokenInfo (.ok prices) now).1 = false ∧
       (updateTokenInfo tokenInfo (.ok prices) now).2.initialized = true) ∧
    (∀ (tokenInfo : TokenInfo) (prices : List PoolResult) (now : Nat),
       tokenInfo.initialized = true →
       buildDexPrices prices now ≠ tokenInfo.dexPrices →
       (updateTokenInfo tokenInfo (.ok prices) now).1 = true) := by
  constructor
  · intro tokenInfo prices now h
    simp [updateTokenInfo, h]
  · intro tokenInfo prices now h hne
    simp only [updateTokenInfo, h, if_true, bne_iff_ne, ne_eq]
    exact fun hh => hne hh.symm

/-- C5 witness: a fresh token's first refresh reports no change; the second
refresh with a different computed rate reports a change. -/
theorem c5_first_refresh_baseline_witness :
    (updateTokenInfo freshToken firstFetchF 0).1 = false ∧
    (updateTokenInfo (updateTokenInfo freshToken firstFetchF 0).2 secondFetchF 0).1 = true := by
  constructor
  · exact (c5_first_refresh_baseline.1 freshToken
      [⟨"uniswap_v3", "0xr", 2, 5, "0xb", "WETH", none⟩] 0 (by decide)).1
  · exact c5_first_refresh_baseline.2 (updateTokenInfo freshToken firstFetchF 0).2
      [⟨"uniswap_v3", "0xr", 2, 6, "0xb", "WETH", none⟩] 0 (by decide) (by decide)

/-- C6: in every reachable state the session-to-tokens and
token-to-sessions maps are mutually consistent: a token lies in a session's
subscription set exactly when that session's id lies in the token's
subscriber set. -/
theorem c6_subscription_registry_consistent (st : PricingDurableObject)
    (h : Reachable st) : registryConsistent st :=
  (reachable_wf st h).consistent

/-- C6 witness: consistency of the constructor state. -/
theorem c6_subscription_registry_consistent_witness : registryConsistent initialState :=
  c6_subscription_registry_consistent initialState Reachable.init

/-- C8: every list `getAllAvailablePrices` returns is pairwise ordered with
WETH-based entries before all others and non-increasing liquidity within
each of the two groups. -/
theorem c8_output_sorted (fetch : MoralisFetch) (chain : Chain) (tokenAddress : String) :
    (getAllAvailablePrices fetch chain tokenAddress).Pairwise wethThenLiquidity := by
  simp only [getAllAvailablePrices]
  by_cases h : getMoralisPools fetch chain tokenAddress = []
  · rw [if_pos h]
    exact pairwise_deduplicateAndSort _
  · rw [if_neg h]
    by_cases h2 : queryMoralisForPools fetch = []
    · have : getMoralisPools fetch chain tokenAddress = [] := by
        simp [getMoralisPools, h2]
      exact absurd this h
    · have : getMoralisPools fetch chain tokenAddress =
          deduplicateAndSort ((((queryMoralisForPools fetch).filter (fun pool =>
            !(pool.exchange_name = "") && isSupportedExchange pool.exchange_name)).take 10).foldl
            (moralisPoolStep chain tokenAddress) ([], [])).2 := by
        simp [getMoralisPools, h2]
      rw [this]
      exact pairwise_deduplicateAndSort _

/-- C9: a failed index query (or any query producing no usable indexed
result) makes `getAllAvailablePrices` return exactly the direct factory
discovery results. -/
theorem c9_index_outage_fallback :
    (∀ (chain : Chain) (tokenAddress : String),
       getAllAvailablePrices .fail chain tokenAddress = getDirectDexPools chain tokenAddress) ∧
    (∀ (fetch : MoralisFetch) (chain : Chain) (tokenAddress : String),
       getMoralisPools fetch chain tokenAddress = [] →
       getAllAvailablePrices fetch chain tokenAddress = getDirectDexPools chain tokenAddress) := by
  constructor
  · intro chain tokenAddress
    rfl
  · intro fetch chain tokenAddress h
    simp [getAllAvailablePrices, h]

/-- C9 witness: the fallback equality at a failed fetch over the empty
chain. -/
theorem c9_index_outage_fallback_witness :
    getAllAvailablePrices .fail emptyChain "0xT" = getDirectDexPools emptyChain "0xT" :=
  c9_index_outage_fallback.2 .fail emptyChain "0xT" rfl

/-- C10: a failed refresh reports no change, stamps the record and marks it
initialized, records exactly one sentinel error entry when no prices were
stored, keeps the stored prices otherwise, and always leaves a non-empty
map. -/
theorem c10_error_sentinel (tokenInfo : TokenInfo) (msg : String) (now : Nat) :
    (updateTokenInfo tokenInfo (.err msg) now).1 = false ∧
    (updateTokenInfo tokenInfo (.err msg) now).2.dexPrices =
      (if tokenInfo.dexPrices = [] then [("error", errorEntry msg now)]
       else tokenInfo.dexPrices) ∧
    (updateTokenInfo tokenInfo (.err msg) now).2.dexPrices ≠ [] ∧
    (updateTokenInfo tokenInfo (.err msg) now).2.lastUpdate = now ∧
    (updateTokenInfo tokenInfo (.err msg) now).2.initialized = true := by
  refine ⟨rfl, rfl, ?_, rfl, rfl⟩
  by_cases h : tokenInfo.dexPrices = [] <;> simp [updateTokenInfo, h]

/-- C1 counterexample: in the two-session state where only token `0xX`
(subscribed solely by `s1`) changes, the fan-out still pushes to `s2`,
whose only subscribed token `0xY` did not change. -/
theorem c1_disjoint_session_notified :
    ("s2", [tokenYAfter]) ∈ (updateAllActivePrices twoSessionState passFetch 1).2 ∧
    (updateTokenInfo tokenY (passFetch "0xY") 1).1 = false := by
  refine ⟨by decide, by decide⟩

/-- C1 (amended): when some token changed during a refresh pass, the
fan-out pushes to exactly the clients appearing in some token's subscriber
set whose session exists with an open socket — regardless of which tokens
changed — and each payload holds the post-refresh records of all of that
session's subscribed tokens. -/
theorem c1_fanout_targets (st : PricingDurableObject) (fetch : String → FetchOutcome)
    (now : Nat) (clientId : String) (payload : List TokenInfo)
    (hchanged : (refreshRegistry st fetch now).2 = true) :
    ((clientId, payload) ∈ (updateAllActivePrices st fetch now).2 ↔
      (∃ e, e ∈ st.tokenSubscribers ∧ clientId ∈ e.2) ∧
      ∃ session, mapGet st.sessions clientId = some session ∧ session.wsOpen = true ∧
        payload = session.subscribedTokens.filterMap
          (fun addr => mapGet (refreshRegistry st fetch now).1 addr)) := by
  simp only [updateAllActivePrices, hchanged, if_true]
  rw [mem_notifyAllClients]

/-- C1 witness: in the two-session state session `s1` (which is in `0xX`'s
subscriber set) receives the push with its post-refresh token record. -/
theorem c1_fanout_targets_witness :
    ("s1", [tokenXAfter]) ∈ (updateAllActivePrices twoSessionState passFetch 1).2 :=
  (c1_fanout_targets twoSessionState passFetch 1 "s1" [tokenXAfter] (by decide)).mpr (by decide)
